import Mathlib

/-!
Verification of the training-orchestration module `tf2_gnn/utils/training_utils.py`
(configuration resolution for dataset/model hyperparameters and the early-stopping
training loop).  Python dictionaries of JSON-compatible hyperparameter values are
embedded as functions from string keys to optional values; `dict.update` is the
right-biased pointwise merge.  Validation metrics (Python floats used only through
comparison and minimum) are embedded as rationals.  The collaborator objects
(`GraphDataset`, `GraphTaskModel`, the task/model registries of `task_utils.py` and
the file system) are opaque in the source and appear here as explicit parameters.
-/

deriving instance DecidableEq for Except

namespace TrainingUtils

/-- A JSON-compatible scalar hyperparameter value as stored in the parameter
dictionaries (`5`, `0.1`, `true`, `"rgcn"`).  Merging never inspects values, so
scalars suffice for the resolution logic. -/
inductive JValue where
  | jint : Int → JValue
  | jfloat : ℚ → JValue
  | jbool : Bool → JValue
  | jstr : String → JValue
deriving DecidableEq

/-- A hyperparameter mapping (a Python `Dict[str, Any]`): keys to optional values. -/
abbrev Dict := String → Option JValue

/-- The empty mapping `{}`. -/
def emptyDict : Dict := fun _ => none

/-- Python `base.update(other)`: every key present in `other` is overwritten with
the value from `other`; all other keys keep their value from `base`. -/
def dictUpdate (base other : Dict) : Dict :=
  fun k =>
    match other k with
    | some v => some v
    | none => base k

/-- Python `d[key] = v`: point update of one key. -/
def dictInsert (d : Dict) (key : String) (v : JValue) : Dict :=
  fun k => if k = key then some v else d k

/-- A mapping with exactly one key. -/
def dictSingleton (key : String) (v : JValue) : Dict :=
  fun k => if k = key then some v else none

/-- The identity of a dataset class (the Python class object), carrying its
class-intrinsic `get_default_hyperparameters()`. -/
structure DatasetClassInfo where
  name : String
  get_default_hyperparameters : Dict

/-- The identity of a model class, whose `get_default_hyperparameters` depends on
the chosen message-passing implementation. -/
structure ModelClassInfo where
  name : String
  get_default_hyperparameters : String → Dict

/-- The fatal error outcomes of configuration resolution:
`UnknownTaskError` from the registry lookup, a malformed JSON file, and
`HyperparameterCoercionError` from hyperdrive override coercion. -/
inductive TrainError where
  | unknownTask : TrainError
  | malformedJson : String → TrainError
  | coercion : String → TrainError
deriving DecidableEq

/-- Decimal digit value of a character, if it is a digit. -/
def digitVal (c : Char) : Option Nat :=
  if 48 ≤ c.toNat ∧ c.toNat ≤ 57 then some (c.toNat - 48) else none

/-- Accumulating digit-string parser. -/
def parseDigitsAux : List Char → Nat → Option Nat
  | [], acc => some acc
  | c :: cs, acc =>
    match digitVal c with
    | some d => parseDigitsAux cs (acc * 10 + d)
    | none => none

/-- Parse a nonempty all-digit string as a natural number. -/
def parseNatChars : List Char → Option Nat
  | [] => none
  | c :: cs => parseDigitsAux (c :: cs) 0

/-- Parse an optionally `-`-signed digit string as an integer. -/
def parseIntChars : List Char → Option Int
  | '-' :: cs => (parseNatChars cs).map (fun n => -(n : Int))
  | cs => (parseNatChars cs).map (fun n => (n : Int))

/-- Split a character list at the first `.`, if any. -/
def splitAtDot : List Char → List Char × Option (List Char)
  | [] => ([], none)
  | c :: cs =>
    if c = '.' then ([], some cs)
    else
      let r := splitAtDot cs
      (c :: r.1, r.2)

/-- Parse a decimal string (`"7"`, `"-2.5"`) as a rational. -/
def parseRatChars (cs : List Char) : Option ℚ :=
  match splitAtDot cs with
  | (w, none) => (parseIntChars w).map (fun n => (n : ℚ))
  | (w, some f) =>
    match parseIntChars w, parseNatChars f with
    | some n, some m =>
      let frac : ℚ := mkRat m (10 ^ f.length)
      some (if w.headD ' ' = '-' then (n : ℚ) - frac else (n : ℚ) + frac)
    | _, _ => none

/-- Modelled from the spec: the per-key type coercion used by
`override_model_params_with_hyperdrive_params` (defined in
`tf2_gnn/azure_ml/utils.py`, which is not among the sources).  Per the spec the
coercion is driven by the type of the value already present in the mapping:
string true/false to boolean for a boolean prior, numeric strings to int/float
preserving the prior type, else left as string; a value that cannot be coerced to
the prior type is a coercion failure. -/
def coerceValue (prior : JValue) (s : String) : Option JValue :=
  match prior with
  | .jbool _ =>
    if s = "true" then some (.jbool true)
    else if s = "false" then some (.jbool false)
    else none
  | .jint _ => (parseIntChars s.data).map (fun n => .jint n)
  | .jfloat _ => (parseRatChars s.data).map (fun q => .jfloat q)
  | .jstr _ => some (.jstr s)

/-- Modelled from the spec: `override_model_params_with_hyperdrive_params` from
`tf2_gnn/azure_ml/utils.py` is not among the sources.  Per the spec it applies the
hyperdrive search overrides (string-valued) to the model-parameter mapping with
per-key type coercion against the value currently present, failing with
`HyperparameterCoercionError` when coercion is impossible.  The spec does not fix
the behaviour for a key with no prior value; here the raw string is stored. -/
def override_model_params_with_hyperdrive_params
    (model_params : Dict) (hyperdrive_params : List (String × String)) :
    Except TrainError Dict :=
  hyperdrive_params.foldlM
    (fun params kv =>
      match params kv.1 with
      | some prior =>
        match coerceValue prior kv.2 with
        | some v => Except.ok (dictInsert params kv.1 v)
        | none => Except.error (TrainError.coercion kv.1)
      | none => Except.ok (dictInsert params kv.1 (JValue.jstr kv.2)))
    model_params

/-- Embedding of `get_dataset` (training_utils.py lines 39-54).  The registry
lookup `task_name_to_dataset_class` (from `task_utils.py`, a static task-name to
class-and-default-overrides table) is an explicit parameter; an unregistered task
is the `UnknownTaskError` case.  The constructed dataset is represented by its
class and its resolved parameter mapping. -/
def get_dataset
    (task_name_to_dataset_class : String → Option (DatasetClassInfo × Dict))
    (task_name : String)
    (dataset_cls : Option DatasetClassInfo)
    (dataset_model_optimised_default_hyperparameters : Dict)
    (loaded_data_hyperparameters : Dict)
    (cli_data_hyperparameter_overrides : Dict) :
    Except TrainError (DatasetClassInfo × Dict) :=
  match dataset_cls with
  | none =>
    match task_name_to_dataset_class task_name with
    | none => Except.error TrainError.unknownTask
    | some (cls, dataset_default_hyperparameter_overrides) =>
      let dataset_params := cls.get_default_hyperparameters
      let dataset_params := dictUpdate dataset_params dataset_default_hyperparameter_overrides
      let dataset_params := dictUpdate dataset_params dataset_model_optimised_default_hyperparameters
      Except.ok (cls, dictUpdate dataset_params cli_data_hyperparameter_overrides)
  | some cls =>
    Except.ok (cls, dictUpdate loaded_data_hyperparameters cli_data_hyperparameter_overrides)

/-- Embedding of `get_model` (training_utils.py lines 57-77).  The registry lookup
`task_name_to_model_class` is an explicit parameter, as is the hyperdrive override
list; the `gnn_message_calculation_class` key is set before the override layers,
exactly as in the source. -/
def get_model
    (task_name_to_model_class : String → Option (ModelClassInfo × Dict))
    (msg_passing_implementation : String)
    (task_name : String)
    (model_cls : Option ModelClassInfo)
    (dataset_model_optimised_default_hyperparameters : Dict)
    (loaded_model_hyperparameters : Dict)
    (cli_model_hyperparameter_overrides : Dict)
    (hyperdrive_hyperparameter_overrides : List (String × String)) :
    Except TrainError (ModelClassInfo × Dict) := do
  let base ←
    match model_cls with
    | none =>
      match task_name_to_model_class task_name with
      | none => Except.error TrainError.unknownTask
      | some (cls, model_default_hyperparameter_overrides) =>
        let model_params := cls.get_default_hyperparameters msg_passing_implementation
        let model_params := dictInsert model_params "gnn_message_calculation_class"
          (JValue.jstr msg_passing_implementation)
        let model_params := dictUpdate model_params model_default_hyperparameter_overrides
        let model_params := dictUpdate model_params dataset_model_optimised_default_hyperparameters
        Except.ok (cls, model_params)
    | some cls => Except.ok (cls, loaded_model_hyperparameters)
  let model_params := dictUpdate base.2 cli_model_hyperparameter_overrides
  let model_params ← override_model_params_with_hyperdrive_params model_params
    hyperdrive_hyperparameter_overrides
  return (base.1, model_params)

/-- The checkpoint record pickled by `save_model` and read back by
`get_model_and_dataset`: exactly the four fields of `data_to_store`
(training_utils.py lines 27-32). -/
structure Checkpoint where
  model_class : ModelClassInfo
  model_params : Dict
  dataset_class : DatasetClassInfo
  dataset_params : Dict

/-- A constructed `GraphTaskModel` as far as `save_model` observes it: its class
and its `_params` mapping. -/
structure GraphTaskModelObj where
  cls : ModelClassInfo
  params : Dict

/-- A constructed `GraphDataset` as far as `save_model` observes it. -/
structure GraphDatasetObj where
  cls : DatasetClassInfo
  params : Dict

/-- The effect of `save_model` (training_utils.py lines 26-36): the record pickled
to `save_file` and the path at which `model.save_weights` stores the weights. -/
structure SaveModelEffect where
  data_to_store : Checkpoint
  pickle_file : String
  weights_file : String

/-- Embedding of `save_model` (training_utils.py lines 26-36): pickle the
four-field record to `save_file` and save the weights at the same stem. -/
def save_model (save_file : String) (model : GraphTaskModelObj)
    (dataset : GraphDatasetObj) : SaveModelEffect :=
  { data_to_store :=
      { model_class := model.cls
        model_params := model.params
        dataset_class := dataset.cls
        dataset_params := dataset.params }
    pickle_file := save_file
    weights_file := save_file }

/-- The loading stage of `get_model_and_dataset` (training_utils.py lines 90-114):
either deserialize the checkpoint (classes and hyperparameters taken verbatim, no
tuned defaults looked up), or start from empty loaded parameters and read the
task/model-specific tuned-defaults JSON file when it exists.  The file system and
the JSON parse outcome are explicit parameters: `tuned_defaults_file_found` is
`os.path.exists` on `default_hypers/{task}_{model}.json`, and
`tuned_defaults_parse` is the result `json.load` would produce for it. -/
structure LoadStage where
  model_class : Option ModelClassInfo
  dataset_class : Option DatasetClassInfo
  loaded_model_params : Dict
  loaded_dataset_params : Dict
  default_task_model_hypers : String → Option Dict

/-- See `LoadStage`.  On a missing tuned-defaults file the hypers mapping is `{}`
(no error); on a present file the parse outcome decides. -/
def load_stage (trained_model_file : Option Checkpoint)
    (tuned_defaults_file_found : Bool)
    (tuned_defaults_parse : Except TrainError (String → Option Dict)) :
    Except TrainError LoadStage :=
  match trained_model_file with
  | some ckpt =>
    Except.ok
      { model_class := some ckpt.model_class
        dataset_class := some ckpt.dataset_class
        loaded_model_params := ckpt.model_params
        loaded_dataset_params := ckpt.dataset_params
        default_task_model_hypers := fun _ => none }
  | none =>
    match (if tuned_defaults_file_found then tuned_defaults_parse
           else Except.ok (fun _ => none)) with
    | Except.error e => Except.error e
    | Except.ok h =>
      Except.ok
        { model_class := none
          dataset_class := none
          loaded_model_params := fun _ => none
          loaded_dataset_params := fun _ => none
          default_task_model_hypers := h }

/-- Embedding of `get_model_and_dataset` (training_utils.py lines 80-140) at the
level of parameter resolution: the loading stage, then `get_dataset` with the
`task_params` tuned-default group, then `get_model` with the `model_params` group.
The final `dataset.load_data` call is an opaque collaborator side effect and does
not change the resolved parameters. -/
def get_model_and_dataset
    (task_name_to_dataset_class : String → Option (DatasetClassInfo × Dict))
    (task_name_to_model_class : String → Option (ModelClassInfo × Dict))
    (task_name msg_passing_implementation : String)
    (trained_model_file : Option Checkpoint)
    (tuned_defaults_file_found : Bool)
    (tuned_defaults_parse : Except TrainError (String → Option Dict))
    (cli_data_hyperparameter_overrides cli_model_hyperparameter_overrides : Dict)
    (hyperdrive_hyperparameter_overrides : List (String × String)) :
    Except TrainError ((DatasetClassInfo × Dict) × (ModelClassInfo × Dict)) := do
  let st ← load_stage trained_model_file tuned_defaults_file_found tuned_defaults_parse
  let dataset ← get_dataset task_name_to_dataset_class task_name st.dataset_class
    ((st.default_task_model_hypers "task_params").getD emptyDict)
    st.loaded_dataset_params cli_data_hyperparameter_overrides
  let model ← get_model task_name_to_model_class msg_passing_implementation task_name
    st.model_class
    ((st.default_task_model_hypers "model_params").getD emptyDict)
    st.loaded_model_params cli_model_hyperparameter_overrides
    hyperdrive_hyperparameter_overrides
  return (dataset, model)

/-- Embedding of `make_run_id` (training_utils.py lines 18-23).  The current time
`time.strftime` is an explicit parameter. -/
def make_run_id (model_name task_name : String) (run_name : Option String)
    (timestamp : String) : String :=
  match run_name with
  | some name => name
  | none => model_name ++ "_" ++ task_name ++ "__" ++ timestamp

/-- The run identifier computed inside `run_train_from_args` (training_utils.py
line 227): the source calls `make_run_id(args.model, args.task)` and does not pass
`args.run_name`, so the parsed `--run-name` value (carried here as `run_name`) is
ignored. -/
def run_train_run_id (args_model args_task : String) (run_name : Option String)
    (timestamp : String) : String :=
  make_run_id args_model args_task none timestamp

/-- The log file path of `run_train_from_args` (training_utils.py line 228). -/
def run_train_log_file (save_dir run_id : String) : String :=
  save_dir ++ "/" ++ run_id ++ ".log"

/-- The checkpoint path chosen by `train` (training_utils.py line 163). -/
def train_save_file (save_dir run_id : String) : String :=
  save_dir ++ "/" ++ run_id ++ "_best.pkl"

/-- An observable action of the training loop: a validation pass, a training pass,
or a `save_model` checkpoint write (epoch 0 is the pre-training baseline). -/
inductive TrainEvent where
  | validPass : ℕ → TrainEvent
  | trainPass : ℕ → TrainEvent
  | saveCkpt : ℕ → TrainEvent
deriving DecidableEq

/-- The loop state of `train` (training_utils.py lines 163-210):
`best_valid_metric` and `best_valid_epoch` as in the source, `saves` the stack of
`save_model` calls (most recent first, so the head is the current content of the
checkpoint file), `epochs_run` the number of completed `for` iterations, `stopped`
whether the early-stopping `break` has fired, and `trace` the chronological list
of passes and checkpoint writes. -/
structure TrainState where
  best_valid_metric : ℚ
  best_valid_epoch : ℕ
  saves : List (ℕ × ℚ)
  epochs_run : ℕ
  stopped : Bool
  trace : List TrainEvent
deriving DecidableEq

/-- The state of `train` after the initial validation pass and baseline
`save_model` call (training_utils.py lines 165-169), before the epoch loop. -/
def initState (baseline : ℚ) : TrainState :=
  { best_valid_metric := baseline
    best_valid_epoch := 0
    saves := [(0, baseline)]
    epochs_run := 0
    stopped := false
    trace := [TrainEvent.validPass 0, TrainEvent.saveCkpt 0] }

/-- One iteration of the epoch loop (training_utils.py lines 171-209) given the
scalar validation metric the collaborator model produces for this epoch: train
pass, validation pass, then either a strict improvement (checkpoint write and
best-tracking update) or a stale epoch, which stops the loop when
`epoch - best_valid_epoch >= patience`. -/
def epochStep (patience : ℕ) (s : TrainState) (valid_metric : ℚ) : TrainState :=
  let epoch := s.epochs_run + 1
  let s1 : TrainState :=
    { s with
        epochs_run := epoch
        trace := s.trace ++ [TrainEvent.trainPass epoch, TrainEvent.validPass epoch] }
  if valid_metric < s.best_valid_metric then
    { s1 with
        best_valid_metric := valid_metric
        best_valid_epoch := epoch
        saves := (epoch, valid_metric) :: s1.saves
        trace := s1.trace ++ [TrainEvent.saveCkpt epoch] }
  else if patience ≤ epoch - s.best_valid_epoch then
    { s1 with stopped := true }
  else s1

/-- The epoch loop of `train`: one `epochStep` per entry of `valid_metrics` (the
validation metric each epoch would observe, one per epoch up to `max_epochs`),
stopping early once `stopped` is set. -/
def runEpochs (patience : ℕ) : List ℚ → TrainState → TrainState
  | [], s => s
  | m :: rest, s =>
    if s.stopped then s else runEpochs patience rest (epochStep patience s m)

/-- Embedding of `train` (training_utils.py lines 149-210): the final loop state
together with the returned checkpoint path.  `baseline` is the metric of the
initial validation pass; `valid_metrics` are the per-epoch validation metrics the
collaborator model would produce (its length is the `max_epochs` budget). -/
def train (patience : ℕ) (baseline : ℚ) (valid_metrics : List ℚ)
    (save_dir run_id : String) : TrainState × String :=
  (runEpochs patience valid_metrics (initState baseline),
   train_save_file save_dir run_id)

/-- The metric observed at a given epoch: epoch 0 is the baseline, epoch `e + 1`
is entry `e` of the observed per-epoch metric list. -/
def metricAt (baseline : ℚ) (observed : List ℚ) : ℕ → ℚ
  | 0 => baseline
  | e + 1 => observed.getD e baseline

/-- The loop invariant of `train` relative to the baseline and the list of
per-epoch validation metrics observed so far: the tracked best metric is the
minimum of all observed metrics (baseline included) and the best epoch is the
earliest epoch attaining it. -/
def TrainInv (baseline : ℚ) (observed : List ℚ) (s : TrainState) : Prop :=
  s.epochs_run = observed.length ∧
  s.best_valid_metric = observed.foldl min baseline ∧
  s.best_valid_epoch ≤ observed.length ∧
  metricAt baseline observed s.best_valid_epoch = s.best_valid_metric ∧
  ∀ e < s.best_valid_epoch, s.best_valid_metric < metricAt baseline observed e

/-- Fixture: dataset class defaults used by concrete instantiations. -/
def exDatasetDefaults : Dict :=
  fun k =>
    if k = "max_nodes_per_batch" then some (JValue.jint 10000)
    else if k = "add_self_loop_edges" then some (JValue.jbool true)
    else if k = "tie_fwd_bkwd_edges" then some (JValue.jbool true)
    else if k = "learning_rate" then some (JValue.jfloat (mkRat 1 1000))
    else none

/-- Fixture: a dataset class. -/
def exDatasetClass : DatasetClassInfo :=
  { name := "PPIDataset", get_default_hyperparameters := exDatasetDefaults }

/-- Fixture: task-specific default overrides for the dataset class. -/
def exTaskOverrides : Dict :=
  dictSingleton "add_self_loop_edges" (JValue.jbool false)

/-- Fixture: a task-name registry mapping the task `"PPI"` to `exDatasetClass`. -/
def exTaskRegistry : String → Option (DatasetClassInfo × Dict) :=
  fun task_name =>
    if task_name = "PPI" then some (exDatasetClass, exTaskOverrides) else none

/-- Fixture: tuned task+model default overrides. -/
def exTunedDefaults : Dict :=
  dictSingleton "tie_fwd_bkwd_edges" (JValue.jbool false)

/-- Fixture: CLI overrides. -/
def exCliOverrides : Dict :=
  dictSingleton "max_nodes_per_batch" (JValue.jint 500)

/-- Fixture: the validation-metric sequence 0.9, 0.95, 0.95, 0.95 of the spec's
early-stopping example (the 1.0 of that example is the baseline). -/
def exMetrics : List ℚ := [mkRat 9 10, mkRat 19 20, mkRat 19 20, mkRat 19 20]

/-- Claim C9: every checkpoint written by `save_model` records exactly the four
fields model class, model hyperparameters, dataset class and dataset
hyperparameters, the parameter mappings verbatim, and the model weights are saved
separately at the same file stem. -/
theorem claim_C9_checkpoint_record (save_file : String) (model : GraphTaskModelObj)
    (dataset : GraphDatasetObj) :
    save_model save_file model dataset =
      { data_to_store :=
          { model_class := model.cls
            model_params := model.params
            dataset_class := dataset.cls
            dataset_params := dataset.params }
        pickle_file := save_file
        weights_file := save_file } ∧
    (save_model save_file model dataset).weights_file =
      (save_model save_file model dataset).pickle_file :=
  ⟨rfl, rfl⟩

/-- Claim C5: `run_train_from_args` calls `make_run_id(args.model, args.task)`
without passing `args.run_name`, so an explicitly supplied run name is ignored
and the identifier is always derived from model, task and timestamp —
contradicting the `--run-name` help text and `make_run_id` docstring, which
`make_run_id` itself honours. -/
theorem claim_C5_run_name_ignored :
    run_train_run_id "RGCN" "PPI" (some "my-run") "2020-01-01_00-00-00" =
      "RGCN_PPI__2020-01-01_00-00-00" ∧
    run_train_run_id "RGCN" "PPI" (some "my-run") "2020-01-01_00-00-00" ≠ "my-run" ∧
    make_run_id "RGCN" "PPI" (some "my-run") "2020-01-01_00-00-00" = "my-run" :=
  ⟨rfl, by decide, rfl⟩

/-- Claim C1: with no dataset class override, `get_dataset` resolves the
parameters as the class defaults overwritten in order by the task-specific
default overrides, the tuned task+model defaults and the CLI overrides, each
layer overwriting exactly the keys it contains; a key in none of the layers
keeps its class-default value. -/
theorem claim_C1_dataset_resolution
    (task_name_to_dataset_class : String → Option (DatasetClassInfo × Dict))
    (task_name : String) (cls : DatasetClassInfo)
    (task_overrides tuned loaded cli : Dict)
    (h : task_name_to_dataset_class task_name = some (cls, task_overrides)) :
    ∃ dataset_params : Dict,
      get_dataset task_name_to_dataset_class task_name none tuned loaded cli =
        Except.ok (cls, dataset_params) ∧
      ∀ k, dataset_params k =
        match cli k with
        | some v => some v
        | none =>
          match tuned k with
          | some v => some v
          | none =>
            match task_overrides k with
            | some v => some v
            | none => cls.get_default_hyperparameters k := by
  refine ⟨dictUpdate (dictUpdate (dictUpdate cls.get_default_hyperparameters
    task_overrides) tuned) cli, ?_, ?_⟩
  · simp [get_dataset, h]
  · intro k
    simp only [dictUpdate]

/-- Witness for claim C1 at a concrete registry, task and override layers. -/
theorem claim_C1_witness :
    exTaskRegistry "PPI" = some (exDatasetClass, exTaskOverrides) ∧
    (∃ dataset_params : Dict,
      get_dataset exTaskRegistry "PPI" none exTunedDefaults emptyDict exCliOverrides =
        Except.ok (exDatasetClass, dataset_params) ∧
      ∀ k, dataset_params k =
        match exCliOverrides k with
        | some v => some v
        | none =>
          match exTunedDefaults k with
          | some v => some v
          | none =>
            match exTaskOverrides k with
            | some v => some v
            | none => exDatasetClass.get_default_hyperparameters k) :=
  ⟨rfl, claim_C1_dataset_resolution exTaskRegistry "PPI" exDatasetClass
    exTaskOverrides exTunedDefaults emptyDict exCliOverrides rfl⟩

/-- Claim C6: when a saved-model file is supplied, the checkpoint's
hyperparameters are the base mapping for both dataset and model — no class
defaults or task/tuned default layers are re-applied (the result does not depend
on the registries or the tuned-defaults file at all) — and CLI overrides apply
on top of them last. -/
theorem claim_C6_loaded_hypers_verbatim
    (task_name_to_dataset_class : String → Option (DatasetClassInfo × Dict))
    (task_name_to_model_class : String → Option (ModelClassInfo × Dict))
    (task_name msg_passing_implementation : String) (ckpt : Checkpoint)
    (tuned_defaults_file_found : Bool)
    (tuned_defaults_parse : Except TrainError (String → Option Dict))
    (cli_data cli_model : Dict) :
    get_model_and_dataset task_name_to_dataset_class task_name_to_model_class
        task_name msg_passing_implementation (some ckpt)
        tuned_defaults_file_found tuned_defaults_parse cli_data cli_model [] =
      Except.ok
        ((ckpt.dataset_class, dictUpdate ckpt.dataset_params cli_data),
         (ckpt.model_class, dictUpdate ckpt.model_params cli_model)) :=
  rfl

/-- Claim C7: when no saved model is given and the tuned-defaults JSON file
`default_hypers/{task}_{model}.json` does not exist, loading succeeds and both
the task-params and model-params tuned-default groups are the empty mapping;
loading fails exactly when the file exists and its parse fails, propagating the
parse error. -/
theorem claim_C7_tuned_defaults_missing
    (tuned_defaults_parse : Except TrainError (String → Option Dict)) :
    (∃ st : LoadStage,
        load_stage none false tuned_defaults_parse = Except.ok st ∧
        (st.default_task_model_hypers "task_params").getD emptyDict = emptyDict ∧
        (st.default_task_model_hypers "model_params").getD emptyDict = emptyDict) ∧
    (∀ e, tuned_defaults_parse = Except.error e →
        load_stage none true tuned_defaults_parse = Except.error e) ∧
    (∀ h, tuned_defaults_parse = Except.ok h →
        load_stage none true tuned_defaults_parse =
          Except.ok
            { model_class := none
              dataset_class := none
              loaded_model_params := fun _ => none
              loaded_dataset_params := fun _ => none
              default_task_model_hypers := h }) := by
  refine ⟨⟨_, rfl, rfl, rfl⟩, ?_, ?_⟩ <;> intro x hx <;> subst hx <;> rfl

/-- Witness for claim C7 at a concrete malformed-JSON parse outcome. -/
theorem claim_C7_witness :
    (∃ st : LoadStage,
        load_stage none false (Except.error (TrainError.malformedJson "bad")) =
          Except.ok st ∧
        (st.default_task_model_hypers "task_params").getD emptyDict = emptyDict ∧
        (st.default_task_model_hypers "model_params").getD emptyDict = emptyDict) ∧
    load_stage none true (Except.error (TrainError.malformedJson "bad")) =
      Except.error (TrainError.malformedJson "bad") :=
  ⟨(claim_C7_tuned_defaults_missing (Except.error (TrainError.malformedJson "bad"))).1,
   (claim_C7_tuned_defaults_missing
     (Except.error (TrainError.malformedJson "bad"))).2.1 _ rfl⟩

/-- Claim C8: in model-parameter resolution the hyperdrive search overrides are
applied after the CLI overrides, with per-key coercion driven by the prior
value's type: prior int 5 with override string 7 yields int 7, prior boolean
true with override string false yields boolean false, and prior float 0.1 with
the non-numeric override string abc raises the coercion error. -/
theorem claim_C8_hyperdrive_coercion :
    (∀ (task_name_to_model_class : String → Option (ModelClassInfo × Dict))
       (msg_passing_implementation task_name : String) (cls : ModelClassInfo)
       (tuned loaded cli : Dict) (hyperdrive : List (String × String)),
       get_model task_name_to_model_class msg_passing_implementation task_name
           (some cls) tuned loaded cli hyperdrive =
         (override_model_params_with_hyperdrive_params (dictUpdate loaded cli)
             hyperdrive).map (fun p => (cls, p))) ∧
    (override_model_params_with_hyperdrive_params
        (dictSingleton "lr" (JValue.jint 5)) [("lr", "7")]).map (fun d => d "lr") =
      Except.ok (some (JValue.jint 7)) ∧
    (override_model_params_with_hyperdrive_params
        (dictSingleton "flag" (JValue.jbool true)) [("flag", "false")]).map
        (fun d => d "flag") =
      Except.ok (some (JValue.jbool false)) ∧
    (override_model_params_with_hyperdrive_params
        (dictSingleton "rate" (JValue.jfloat (mkRat 1 10))) [("rate", "abc")]).map
        (fun d => d "rate") =
      Except.error (TrainError.coercion "rate") := by
  refine ⟨?_, by decide, by decide, by decide⟩
  intro task_name_to_model_class msg task cls tuned loaded cli hyperdrive
  cases h : override_model_params_with_hyperdrive_params (dictUpdate loaded cli)
      hyperdrive <;>
    simp [get_model, h, Except.map, Bind.bind, Except.bind, Pure.pure, Except.pure]

theorem epochStep_epochs_run (patience : ℕ) (s : TrainState) (m : ℚ) :
    (epochStep patience s m).epochs_run = s.epochs_run + 1 := by
  simp only [epochStep]
  split
  · rfl
  · split <;> rfl

theorem runEpochs_of_stopped (patience : ℕ) (ms : List ℚ) (s : TrainState)
    (h : s.stopped = true) : runEpochs patience ms s = s := by
  cases ms with
  | nil => rfl
  | cons m rest => simp [runEpochs, h]

theorem runEpochs_epochs_run_of_not_stopped (patience : ℕ) (ms : List ℚ) :
    ∀ s : TrainState, (runEpochs patience ms s).stopped = false →
      (runEpochs patience ms s).epochs_run = s.epochs_run + ms.length := by
  induction ms with
  | nil => intro s _; simp [runEpochs]
  | cons m rest ih =>
    intro s h
    by_cases hs : s.stopped = true
    · rw [runEpochs_of_stopped patience _ s hs] at h
      rw [h] at hs
      exact absurd hs (by simp)
    · have hs' : s.stopped = false := by simpa using hs
      simp only [runEpochs, hs', Bool.false_eq_true, if_false] at h ⊢
      rw [ih _ h, epochStep_epochs_run]
      simp [List.length_cons]
      omega

theorem runEpochs_append (patience : ℕ) (l1 l2 : List ℚ) :
    ∀ s, runEpochs patience (l1 ++ l2) s =
      runEpochs patience l2 (runEpochs patience l1 s) := by
  induction l1 with
  | nil => intro s; rfl
  | cons m rest ih =>
    intro s
    by_cases hs : s.stopped = true
    · rw [runEpochs_of_stopped patience (m :: rest ++ l2) s hs,
        runEpochs_of_stopped patience (m :: rest) s hs,
        runEpochs_of_stopped patience l2 s hs]
    · have hs' : s.stopped = false := by simpa using hs
      simp only [List.cons_append, runEpochs, hs', Bool.false_eq_true, if_false]
      exact ih (epochStep patience s m)

theorem epochStep_trace (patience : ℕ) (s : TrainState) (m : ℚ) :
    ∃ t, (epochStep patience s m).trace =
      s.trace ++ (TrainEvent.trainPass (s.epochs_run + 1) ::
                  TrainEvent.validPass (s.epochs_run + 1) :: t) := by
  simp only [epochStep]
  split
  · exact ⟨[TrainEvent.saveCkpt (s.epochs_run + 1)], by simp⟩
  · split <;> exact ⟨[], by simp⟩

theorem runEpochs_trace_extend (patience : ℕ) (ms : List ℚ) :
    ∀ s, ∃ t, (runEpochs patience ms s).trace = s.trace ++ t := by
  induction ms with
  | nil => intro s; exact ⟨[], by simp [runEpochs]⟩
  | cons m rest ih =>
    intro s
    by_cases hs : s.stopped = true
    · exact ⟨[], by simp [runEpochs_of_stopped patience _ s hs]⟩
    · have hs' : s.stopped = false := by simpa using hs
      obtain ⟨t1, ht1⟩ := epochStep_trace patience s m
      obtain ⟨t2, ht2⟩ := ih (epochStep patience s m)
      refine ⟨(TrainEvent.trainPass (s.epochs_run + 1) ::
        TrainEvent.validPass (s.epochs_run + 1) :: t1) ++ t2, ?_⟩
      simp only [runEpochs, hs', Bool.false_eq_true, if_false]
      rw [ht2, ht1]
      simp

theorem runEpochs_trace_shape (patience : ℕ) (ms : List ℚ) (s : TrainState) :
    ∃ t, (runEpochs patience ms s).trace = s.trace ++ t ∧
      (t = [] ∨ ∃ t2, t = TrainEvent.trainPass (s.epochs_run + 1) ::
                        TrainEvent.validPass (s.epochs_run + 1) :: t2) := by
  cases ms with
  | nil => exact ⟨[], by simp [runEpochs], Or.inl rfl⟩
  | cons m rest =>
    by_cases hs : s.stopped = true
    · exact ⟨[], by simp [runEpochs_of_stopped patience _ s hs], Or.inl rfl⟩
    · have hs' : s.stopped = false := by simpa using hs
      obtain ⟨t1, ht1⟩ := epochStep_trace patience s m
      obtain ⟨t2, ht2⟩ := runEpochs_trace_extend patience rest (epochStep patience s m)
      refine ⟨TrainEvent.trainPass (s.epochs_run + 1) ::
        TrainEvent.validPass (s.epochs_run + 1) :: (t1 ++ t2), ?_,
        Or.inr ⟨t1 ++ t2, rfl⟩⟩
      simp only [runEpochs, hs', Bool.false_eq_true, if_false]
      rw [ht2, ht1]
      simp

theorem epochStep_saves (patience : ℕ) (s : TrainState) (m : ℚ) :
    (epochStep patience s m).saves = (s.epochs_run + 1, m) :: s.saves ∨
    (epochStep patience s m).saves = s.saves := by
  simp only [epochStep]
  split
  · left; rfl
  · right; split <;> rfl

theorem runEpochs_saves_extend (patience : ℕ) (ms : List ℚ) :
    ∀ s, ∃ l, (runEpochs patience ms s).saves = l ++ s.saves := by
  induction ms with
  | nil => intro s; exact ⟨[], rfl⟩
  | cons m rest ih =>
    intro s
    by_cases hs : s.stopped = true
    · exact ⟨[], by simp [runEpochs_of_stopped patience _ s hs]⟩
    · have hs' : s.stopped = false := by simpa using hs
      obtain ⟨l2, hl2⟩ := ih (epochStep patience s m)
      simp only [runEpochs, hs', Bool.false_eq_true, if_false]
      rcases epochStep_saves patience s m with h1 | h1
      · exact ⟨l2 ++ [(s.epochs_run + 1, m)], by rw [hl2, h1]; simp⟩
      · exact ⟨l2, by rw [hl2, h1]⟩

/-- Claim C3: improvement is strict less-than — an epoch whose validation metric
equals the current best leaves the best metric, the best epoch and the
checkpoint-write history unchanged (no `save_model` call), while the epoch
counter still advances, so the epoch counts toward patience exhaustion and the
loop stops exactly when `epoch - best_valid_epoch >= patience`. -/
theorem claim_C3_tie_no_update (patience : ℕ) (s : TrainState) (valid_metric : ℚ)
    (htie : valid_metric = s.best_valid_metric) (hrun : s.stopped = false) :
    (epochStep patience s valid_metric).best_valid_metric = s.best_valid_metric ∧
    (epochStep patience s valid_metric).best_valid_epoch = s.best_valid_epoch ∧
    (epochStep patience s valid_metric).saves = s.saves ∧
    (epochStep patience s valid_metric).trace =
      s.trace ++ [TrainEvent.trainPass (s.epochs_run + 1),
                  TrainEvent.validPass (s.epochs_run + 1)] ∧
    (epochStep patience s valid_metric).epochs_run = s.epochs_run + 1 ∧
    (epochStep patience s valid_metric).stopped =
      decide (patience ≤ s.epochs_run + 1 - s.best_valid_epoch) := by
  subst htie
  simp only [epochStep, lt_irrefl, if_false]
  split
  next h => simp [h]
  next h => simp [h, hrun]

/-- Witness for claim C3: a tie at the baseline state. -/
theorem claim_C3_witness :
    (1 : ℚ) = (initState 1).best_valid_metric ∧
    (initState 1).stopped = false ∧
    ((epochStep 2 (initState 1) 1).best_valid_metric = (initState 1).best_valid_metric ∧
     (epochStep 2 (initState 1) 1).best_valid_epoch = (initState 1).best_valid_epoch ∧
     (epochStep 2 (initState 1) 1).saves = (initState 1).saves ∧
     (epochStep 2 (initState 1) 1).trace =
       (initState 1).trace ++ [TrainEvent.trainPass ((initState 1).epochs_run + 1),
                               TrainEvent.validPass ((initState 1).epochs_run + 1)] ∧
     (epochStep 2 (initState 1) 1).epochs_run = (initState 1).epochs_run + 1 ∧
     (epochStep 2 (initState 1) 1).stopped =
       decide (2 ≤ (initState 1).epochs_run + 1 - (initState 1).best_valid_epoch)) :=
  ⟨rfl, rfl, claim_C3_tie_no_update 2 (initState 1) 1 rfl rfl⟩

/-- Claim C4: `train` runs exactly one validation pass before any training pass,
takes its metric as the baseline best metric, persists a checkpoint at that
point before any epoch, and returns the path `save_dir/run_id_best.pkl`; the
baseline checkpoint write is in the history however the loop terminates, so the
returned path always has content. -/
theorem claim_C4_baseline_checkpoint (patience : ℕ) (baseline : ℚ)
    (valid_metrics : List ℚ) (save_dir run_id : String) :
    (train patience baseline valid_metrics save_dir run_id).2 =
      save_dir ++ "/" ++ run_id ++ "_best.pkl" ∧
    (initState baseline).best_valid_metric = baseline ∧
    (∃ t, (train patience baseline valid_metrics save_dir run_id).1.trace =
        TrainEvent.validPass 0 :: TrainEvent.saveCkpt 0 :: t ∧
      (t = [] ∨ ∃ t2, t = TrainEvent.trainPass 1 :: t2)) ∧
    (∃ l, (train patience baseline valid_metrics save_dir run_id).1.saves =
        l ++ [(0, baseline)]) := by
  refine ⟨rfl, rfl, ?_, ?_⟩
  · obtain ⟨t, ht, hshape⟩ :=
      runEpochs_trace_shape patience valid_metrics (initState baseline)
    refine ⟨t, ?_, ?_⟩
    · simpa [train, initState] using ht
    · rcases hshape with h | ⟨t2, ht2⟩
      · exact Or.inl h
      · exact Or.inr ⟨TrainEvent.validPass 1 :: t2, by simpa [initState] using ht2⟩
  · obtain ⟨l, hl⟩ := runEpochs_saves_extend patience valid_metrics (initState baseline)
    exact ⟨l, by simpa [train, initState] using hl⟩

/-- Claim C2: the epoch loop of `train` terminates at the first epoch `e` (with
`s` the loop state after epochs `1 .. e-1`, whose `best_valid_epoch` is the last
epoch that strictly improved the best metric, the baseline counting as epoch 0)
whose metric does not improve the best while `e - best_valid_epoch >= patience`:
the run over the full metric list stops there, leaving the best-metric tracking
and checkpoint history exactly as after epoch `e - 1`. -/
theorem claim_C2_early_stopping (patience : ℕ) (baseline : ℚ) (ms : List ℚ)
    (e : ℕ) (s : TrainState)
    (hs : s = runEpochs patience (ms.take (e - 1)) (initState baseline))
    (he1 : 1 ≤ e) (he2 : e ≤ ms.length)
    (hrun : s.stopped = false)
    (hstale : ¬ ms.getD (e - 1) baseline < s.best_valid_metric)
    (hpat : patience ≤ e - s.best_valid_epoch) :
    runEpochs patience ms (initState baseline) =
      { s with
          stopped := true
          epochs_run := e
          trace := s.trace ++ [TrainEvent.trainPass e, TrainEvent.validPass e] } := by
  have h1 : e - 1 < ms.length := by omega
  have hlen : (ms.take (e - 1)).length = e - 1 := by
    rw [List.length_take]
    omega
  have hrun' := hrun
  rw [hs] at hrun'
  have hepochs : s.epochs_run = e - 1 := by
    rw [hs, runEpochs_epochs_run_of_not_stopped patience _ _ hrun', hlen]
    simp [initState]
  have hm : ms.getD (e - 1) baseline = ms[e - 1] := by
    rw [List.getD_eq_getElem?_getD, List.getElem?_eq_getElem h1]
    rfl
  have hdrop : ms.drop (e - 1) = ms[e - 1] :: ms.drop e := by
    have he0 : e - 1 + 1 = e := by omega
    rw [List.drop_eq_getElem_cons h1, he0]
  have he : s.epochs_run + 1 = e := by omega
  rw [hm] at hstale
  have hstep : epochStep patience s ms[e - 1] =
      { s with
          stopped := true
          epochs_run := e
          trace := s.trace ++ [TrainEvent.trainPass e, TrainEvent.validPass e] } := by
    simp only [epochStep, he]
    rw [if_neg hstale, if_pos hpat]
  conv_lhs => rw [← List.take_append_drop (e - 1) ms]
  rw [runEpochs_append, ← hs, hdrop]
  simp only [runEpochs, hrun, Bool.false_eq_true, if_false]
  rw [hstep]
  exact runEpochs_of_stopped patience _ _ rfl

/-- Witness for claim C2: the spec's example — patience 3, baseline metric 1.0,
per-epoch metrics 0.9, 0.95, 0.95, 0.95 — stops after epoch 4 with the persisted
best checkpoint the one written at epoch 1 with metric 0.9. -/
theorem claim_C2_witness :
    (runEpochs 3 (exMetrics.take 3) (initState 1)).stopped = false ∧
    ¬ exMetrics.getD 3 1 <
      (runEpochs 3 (exMetrics.take 3) (initState 1)).best_valid_metric ∧
    3 ≤ 4 - (runEpochs 3 (exMetrics.take 3) (initState 1)).best_valid_epoch ∧
    runEpochs 3 exMetrics (initState 1) =
      { runEpochs 3 (exMetrics.take 3) (initState 1) with
          stopped := true
          epochs_run := 4
          trace := (runEpochs 3 (exMetrics.take 3) (initState 1)).trace ++
            [TrainEvent.trainPass 4, TrainEvent.validPass 4] } ∧
    (runEpochs 3 exMetrics (initState 1)).saves.head? = some (1, mkRat 9 10) ∧
    (runEpochs 3 exMetrics (initState 1)).epochs_run = 4 ∧
    (runEpochs 3 exMetrics (initState 1)).best_valid_metric = mkRat 9 10 :=
  ⟨by decide, by decide, by decide,
   claim_C2_early_stopping 3 1 exMetrics 4
     (runEpochs 3 (exMetrics.take 3) (initState 1)) rfl (by decide) (by decide)
     (by decide) (by decide) (by decide),
   by decide, by decide, by decide⟩

theorem foldl_min_le_init (l : List ℚ) (b : ℚ) : l.foldl min b ≤ b := by
  induction l generalizing b with
  | nil => exact le_refl b
  | cons x xs ih => exact le_trans (ih (min b x)) (min_le_left b x)

theorem foldl_min_le_mem : ∀ (l : List ℚ) (b x : ℚ), x ∈ l → l.foldl min b ≤ x := by
  intro l
  induction l with
  | nil => intro b x hx; cases hx
  | cons y ys ih =>
    intro b x hx
    rcases List.mem_cons.mp hx with h | h
    · subst h
      exact le_trans (foldl_min_le_init ys (min b x)) (min_le_right b x)
    · exact ih (min b y) x h

theorem getD_eq_getElem (l : List ℚ) (i : ℕ) (d : ℚ) (h : i < l.length) :
    l.getD i d = l[i] := by
  rw [List.getD_eq_getElem?_getD, List.getElem?_eq_getElem h]
  rfl

theorem foldl_min_le_metricAt (l : List ℚ) (b : ℚ) (e : ℕ) (he : e ≤ l.length) :
    l.foldl min b ≤ metricAt b l e := by
  cases e with
  | zero => exact foldl_min_le_init l b
  | succ i =>
    have hi : i < l.length := by omega
    show l.foldl min b ≤ l.getD i b
    rw [getD_eq_getElem l i b hi]
    exact foldl_min_le_mem l b l[i] (List.getElem_mem hi)

theorem metricAt_append (b m : ℚ) (pre : List ℚ) (e : ℕ) (he : e ≤ pre.length) :
    metricAt b (pre ++ [m]) e = metricAt b pre e := by
  cases e with
  | zero => rfl
  | succ i =>
    have hi : i < pre.length := by omega
    show (pre ++ [m]).getD i b = pre.getD i b
    rw [List.getD_eq_getElem?_getD, List.getElem?_append_left hi,
      ← List.getD_eq_getElem?_getD]

theorem metricAt_append_self (b m : ℚ) (pre : List ℚ) :
    metricAt b (pre ++ [m]) (pre.length + 1) = m := by
  show (pre ++ [m]).getD pre.length b = m
  rw [List.getD_eq_getElem?_getD, List.getElem?_append_right (le_refl pre.length)]
  simp

theorem epochStep_best_le (patience : ℕ) (s : TrainState) (m : ℚ) :
    (epochStep patience s m).best_valid_metric ≤ s.best_valid_metric := by
  simp only [epochStep]
  split
  next h => exact le_of_lt h
  next h => split <;> exact le_refl _

theorem runEpochs_best_le (patience : ℕ) (ms : List ℚ) :
    ∀ s, (runEpochs patience ms s).best_valid_metric ≤ s.best_valid_metric := by
  induction ms with
  | nil => intro s; exact le_refl _
  | cons m rest ih =>
    intro s
    by_cases hs : s.stopped = true
    · rw [runEpochs_of_stopped patience _ s hs]
    · have hs' : s.stopped = false := by simpa using hs
      simp only [runEpochs, hs', Bool.false_eq_true, if_false]
      exact le_trans (ih (epochStep patience s m)) (epochStep_best_le patience s m)

theorem trainInv_step (patience : ℕ) (baseline : ℚ) (pre : List ℚ)
    (s : TrainState) (m : ℚ) (h : TrainInv baseline pre s) :
    TrainInv baseline (pre ++ [m]) (epochStep patience s m) := by
  obtain ⟨h1, h2, h3, h4, h5⟩ := h
  have hfold : (pre ++ [m]).foldl min baseline =
      min (pre.foldl min baseline) m := by
    rw [List.foldl_append]
    rfl
  by_cases hm : m < s.best_valid_metric
  · have hE : epochStep patience s m =
        { best_valid_metric := m
          best_valid_epoch := s.epochs_run + 1
          saves := (s.epochs_run + 1, m) :: s.saves
          epochs_run := s.epochs_run + 1
          stopped := s.stopped
          trace := (s.trace ++ [TrainEvent.trainPass (s.epochs_run + 1),
            TrainEvent.validPass (s.epochs_run + 1)]) ++
            [TrainEvent.saveCkpt (s.epochs_run + 1)] } := by
      simp only [epochStep]
      rw [if_pos hm]
    rw [h2] at hm
    refine ⟨by simp [hE, h1], ?_, by simp [hE, h1], ?_, ?_⟩
    · rw [hE, hfold]
      exact (min_eq_right (le_of_lt hm)).symm
    · rw [hE]
      show metricAt baseline (pre ++ [m]) (s.epochs_run + 1) = m
      rw [h1, metricAt_append_self]
    · rw [hE]
      intro e he
      have he' : e < s.epochs_run + 1 := he
      rw [h1] at he'
      show m < metricAt baseline (pre ++ [m]) e
      rw [metricAt_append baseline m pre e (by omega)]
      exact lt_of_lt_of_le hm (foldl_min_le_metricAt pre baseline e (by omega))
  · have hbm : (epochStep patience s m).best_valid_metric = s.best_valid_metric := by
      simp only [epochStep]
      rw [if_neg hm]
      split <;> rfl
    have hbe : (epochStep patience s m).best_valid_epoch = s.best_valid_epoch := by
      simp only [epochStep]
      rw [if_neg hm]
      split <;> rfl
    have hle : pre.foldl min baseline ≤ m := by
      rw [← h2]
      exact not_lt.mp hm
    refine ⟨by simp [epochStep_epochs_run, h1], ?_, ?_, ?_, ?_⟩
    · rw [hbm, h2, hfold, min_eq_left hle]
    · rw [hbe]
      simp only [List.length_append, List.length_cons, List.length_nil]
      omega
    · rw [hbe, hbm, metricAt_append baseline m pre s.best_valid_epoch h3]
      exact h4
    · rw [hbe, hbm]
      intro e he
      rw [metricAt_append baseline m pre e (by omega)]
      exact h5 e he

theorem trainInv_init (baseline : ℚ) : TrainInv baseline [] (initState baseline) := by
  refine ⟨rfl, rfl, le_refl 0, rfl, ?_⟩
  intro e he
  exact absurd he (Nat.not_lt_zero e)

theorem trainInv_runEpochs (patience : ℕ) (baseline : ℚ) (ms : List ℚ) :
    ∀ (pre : List ℚ) (s : TrainState), TrainInv baseline pre s →
      ∃ k, k ≤ ms.length ∧
        TrainInv baseline (pre ++ ms.take k) (runEpochs patience ms s) := by
  induction ms with
  | nil =>
    intro pre s h
    exact ⟨0, le_refl 0, by simpa using h⟩
  | cons m rest ih =>
    intro pre s h
    by_cases hs : s.stopped = true
    · refine ⟨0, Nat.zero_le _, ?_⟩
      rw [runEpochs_of_stopped patience _ s hs]
      simpa using h
    · have hs' : s.stopped = false := by simpa using hs
      obtain ⟨k, hk, hInv⟩ := ih (pre ++ [m]) (epochStep patience s m)
        (trainInv_step patience baseline pre s m h)
      refine ⟨k + 1, by simpa using Nat.succ_le_succ hk, ?_⟩
      simp only [runEpochs, hs', Bool.false_eq_true, if_false, List.take_succ_cons]
      simpa [List.append_assoc] using hInv

/-- Claim C10: after the baseline pass and every completed epoch, the tracked
best validation metric equals the minimum of the baseline and all validation
metrics observed so far (`k` counts the epochs actually run), hence it never
increases as the run extends, and the best-epoch counter names the earliest
epoch at which that minimum was first attained (strictly larger metrics at all
earlier epochs). -/
theorem claim_C10_best_metric_min (patience : ℕ) (baseline : ℚ) (ms : List ℚ) :
    ∃ k, k ≤ ms.length ∧
      (runEpochs patience ms (initState baseline)).epochs_run = k ∧
      (runEpochs patience ms (initState baseline)).best_valid_metric =
        (ms.take k).foldl min baseline ∧
      (runEpochs patience ms (initState baseline)).best_valid_epoch ≤ k ∧
      metricAt baseline (ms.take k)
          (runEpochs patience ms (initState baseline)).best_valid_epoch =
        (runEpochs patience ms (initState baseline)).best_valid_metric ∧
      (∀ e < (runEpochs patience ms (initState baseline)).best_valid_epoch,
        (runEpochs patience ms (initState baseline)).best_valid_metric <
          metricAt baseline (ms.take k) e) ∧
      (∀ ms2 : List ℚ,
        (runEpochs patience (ms ++ ms2) (initState baseline)).best_valid_metric ≤
          (runEpochs patience ms (initState baseline)).best_valid_metric) := by
  obtain ⟨k, hk, hInv⟩ :=
    trainInv_runEpochs patience baseline ms [] (initState baseline)
      (trainInv_init baseline)
  obtain ⟨h1, h2, h3, h4, h5⟩ := hInv
  have hlen : (ms.take k).length = k := by
    rw [List.length_take]
    omega
  refine ⟨k, hk, ?_, ?_, ?_, ?_, ?_, ?_⟩
  · rw [h1]
    simpa using hlen
  · simpa using h2
  · rw [← hlen]
    simpa using h3
  · simpa using h4
  · intro e he
    have := h5 e he
    simpa using this
  · intro ms2
    rw [runEpochs_append]
    exact runEpochs_best_le patience ms2 _

end TrainingUtils
